import Mathlib

/-!
# Verification of the RFIDTagReader serial frame protocol

Shallow embedding of `RFIDTagReader.py` (class `TagReader` and the module-level
`tagReaderCallback`).  Bytes are modelled as `Nat` character codes; the serial
channel is modelled as the list of bytes that would be delivered within the
relevant timeout windows; `flushInput` empties that list and is counted so that
the flush behaviour is observable.  Python exceptions become an error type
`PyErr`; the Python conversion `int(s, 16)` is modelled faithfully, including acceptance
of surrounding ASCII whitespace, a sign, an `0x`/`0X` prefix and single
underscores between digits.
-/

namespace RFID

/-- Python exceptions that the embedded code can raise, by raise site:
* `badStartMarker`   — the `ValueError` raised when the first byte is not `0x02`
* `incompleteFrame`  — the `ValueError` raised when too little data is buffered for a complete tag
* `malformedPayload` — the `ValueError` raised when converting the tag to an integer fails
* `checksumMismatch` — the `ValueError` raised on a failed checksum comparison
* `typeErrorNotCallable` — the `TypeError` produced by `raise e(...)` in
  `TagReader.checkSum`, which calls the caught `ValueError` instance `e`
  (exception instances are not callable). -/
inductive PyErr where
  | badStartMarker
  | incompleteFrame
  | malformedPayload
  | checksumMismatch
  | typeErrorNotCallable
  deriving DecidableEq, Repr

/-- ASCII whitespace bytes stripped by the Python `int` conversion on `bytes` input:
space, tab, LF, CR, vertical tab, form feed. -/
def isPySpace (c : Nat) : Bool :=
  c == 32 || c == 9 || c == 10 || c == 13 || c == 11 || c == 12

/-- Value of an ASCII hexadecimal digit (`0`-`9`, `a`-`f`, `A`-`F`). -/
def hexDigitVal (c : Nat) : Option Nat :=
  if 48 ≤ c ∧ c ≤ 57 then some (c - 48)
  else if 97 ≤ c ∧ c ≤ 102 then some (c - 87)
  else if 65 ≤ c ∧ c ≤ 70 then some (c - 55)
  else none

/-- True when `c` is an ASCII hexadecimal digit. -/
def isHexDigit (c : Nat) : Bool := (hexDigitVal c).isSome

/-- Digit string of Python `int(s, 16)` after sign and optional prefix:
hex digits with single underscores allowed between digits (and directly
after an `0x` prefix), never leading, trailing or doubled.
`usOK`: an underscore may come next; `endOK`: the string may end here. -/
def parseDigitsU (acc : Nat) (usOK endOK : Bool) : List Nat → Option Nat
  | [] => if endOK then some acc else none
  | c :: rest =>
    if c == 95 then
      if usOK then parseDigitsU acc false false rest else none
    else
      match hexDigitVal c with
      | some d => parseDigitsU (acc * 16 + d) true true rest
      | none => none

/-- After the optional sign: an optional `0x`/`0X` prefix (`0` = 48,
`x` = 120, `X` = 88), then digits. -/
def parseAfterSign (s : List Nat) : Option Nat :=
  match s with
  | c0 :: c1 :: rest =>
    if c0 = 48 ∧ (c1 = 120 ∨ c1 = 88) then parseDigitsU 0 true false rest
    else parseDigitsU 0 false false s
  | _ => parseDigitsU 0 false false s

/-- Model of the Python conversion `int(s, 16)` on a `bytes` value `s`:
strip ASCII whitespace on both ends, optional `+`/`-` sign (43/45),
optional `0x`/`0X` prefix, hex digits with single underscores between
digits.  Returns `none` where Python raises `ValueError`. -/
def parsePyInt16 (s : List Nat) : Option Int :=
  let t := ((s.dropWhile isPySpace).reverse.dropWhile isPySpace).reverse
  if t.head? = some 43 then (parseAfterSign t.tail).map (fun n : Nat => (n : Int))
  else if t.head? = some 45 then (parseAfterSign t.tail).map (fun n : Nat => -(n : Int))
  else (parseAfterSign t).map (fun n : Nat => (n : Int))

/-- The chunk `tag[2*i : 2*(i+1)]` of the payload. -/
def chunkAt (tag : List Nat) (i : Nat) : List Nat := (tag.drop (2 * i)).take 2

/-- The loop of `TagReader.checkSum`: `checkedVal` starts at 0 and is XORed
with `int(tag[2*i : 2*(i+1)], 16)` for `i = 0..4` (Python `^` on unbounded
ints, which is `Int.xor`).  `none` when some
chunk fails to parse (the loop raises). -/
def chunksXor (tag : List Nat) : Option Int :=
  match parsePyInt16 (chunkAt tag 0), parsePyInt16 (chunkAt tag 1),
        parsePyInt16 (chunkAt tag 2), parsePyInt16 (chunkAt tag 3),
        parsePyInt16 (chunkAt tag 4) with
  | some a, some b, some c, some d, some e =>
      some (Int.xor (Int.xor (Int.xor (Int.xor (Int.xor 0 a) b) c) d) e)
  | _, _, _, _, _ => none

/-- Model of `TagReader.checkSum tag checkSum`: XOR the five 2-character
chunks of `tag` and compare with `int(checkSum, 16)`.  Any `ValueError`
inside the `try` is caught and re-raised by `raise e(...)`, which calls
the exception instance and therefore actually raises a `TypeError`. -/
def checkSum (tag chk : List Nat) : Except PyErr Bool :=
  match chunksXor tag with
  | none => .error .typeErrorNotCallable
  | some v =>
    match parsePyInt16 chk with
    | none => .error .typeErrorNotCallable
    | some c => .ok (v == c)

/-- Model of `TagReader.readTag` on a reader with `self.dataSize = dataSize`, where
`buf` is the byte stream the channel delivers within the timeout windows:
* result: `.ok` decimal tag value, or `.error` for a raised exception;
* second component: bytes still pending on the channel afterwards;
* third component: how many times `serialPort.flushInput()` ran.

The initial 1-byte read returns an empty read only when nothing arrives (`buf = []`),
in which case `readTag` returns 0.  After a `\x02` start marker the short
0.025 s timeout read delivers at most `dataSize - 1` further bytes. -/
def readTag (dataSize : Nat) (buf : List Nat) : Except PyErr Int × List Nat × Nat :=
  match buf with
  | [] => (.ok 0, [], 0)
  | b :: rest =>
    if b = 2 then
      let tag := rest.take (dataSize - 1)
      let rem := rest.drop (dataSize - 1)
      if tag.length < dataSize - 1 then (.error .incompleteFrame, [], 1)
      else
        match parsePyInt16 (tag.take 10) with
        | none => (.error .malformedPayload, [], 1)
        | some decVal =>
          match checkSum (tag.take 10) ((tag.drop 10).take 2) with
          | .error e => (.error e, rem, 0)
          | .ok true => (.ok decVal, rem, 0)
          | .ok false => (.error .checksumMismatch, [], 1)
    else (.error .badStartMarker, [], 1)

/-- State visible to the module-level callback `tagReaderCallback`:
the level of the tag-in-range line read by `GPIO.input(channel)`, the
module global `globalTag`, and the serial channel of the global reader
(pending bytes plus a flush counter, as in `readTag`). -/
structure SysState where
  pinHigh : Bool
  globalTag : Int
  buffer : List Nat
  flushes : Nat

/-- Model of `tagReaderCallback` for a reader with the given `dataSize`:
if the line is high (tag just entered), `globalTag = globalReader.readTag()`
inside `try`, any exception giving `globalTag = 0`; if the line is low
(tag just left), `globalTag = 0` and `globalReader.clearBuffer()`. -/
def tagReaderCallback (dataSize : Nat) (s : SysState) : SysState :=
  if s.pinHigh then
    match readTag dataSize s.buffer with
    | (.ok v, buf2, n) =>
        { s with globalTag := v, buffer := buf2, flushes := s.flushes + n }
    | (.error _, buf2, n) =>
        { s with globalTag := 0, buffer := buf2, flushes := s.flushes + n }
  else
    { s with globalTag := 0, buffer := [], flushes := s.flushes + 1 }

/-- GPIO edge-detection bookkeeping: which pins have edge detection (with the
event callback) attached, and which pins hold a GPIO resource not yet
released by `GPIO.cleanup`. -/
@[ext] structure GPIOState where
  eventDetect : Nat → Bool
  allocated : Nat → Bool

/-- The value of `self.TIRpin`: `TagReader.__init__` sets it to 23 and it is
never reassigned. -/
def TIRpin : Nat := 23

/-- Model of `TagReader.installCallback(tag_in_range_pin, ...)`:
`GPIO.add_event_detect` and `GPIO.add_event_callback` on the pin given as
argument (note: `self.TIRpin` is not updated). -/
def installCallback (pin : Nat) (g : GPIOState) : GPIOState :=
  { eventDetect := fun p => if p = pin then true else g.eventDetect p,
    allocated := fun p => if p = pin then true else g.allocated p }

/-- Model of `TagReader.removeCallback`: `GPIO.remove_event_detect(self.TIRpin)` and
`GPIO.cleanup(self.TIRpin)` — always on `self.TIRpin`, whatever pin
`installCallback` was given. -/
def removeCallback (g : GPIOState) : GPIOState :=
  { eventDetect := fun p => if p = TIRpin then false else g.eventDetect p,
    allocated := fun p => if p = TIRpin then false else g.allocated p }

/-- Proof-side restatement of the body of `readTag` after a complete frame has
been received: decode `payload`, validate with `checkSum payload chk`, with
`rem` the bytes still pending on the channel. -/
def decodeCore (payload chk rem : List Nat) : Except PyErr Int × List Nat × Nat :=
  match parsePyInt16 payload with
  | none => (.error .malformedPayload, [], 1)
  | some decVal =>
    match checkSum payload chk with
    | .error e => (.error e, rem, 0)
    | .ok true => (.ok decVal, rem, 0)
    | .ok false => (.error .checksumMismatch, [], 1)

/-- After a start marker with at least `dataSize - 1` further bytes available,
`readTag` decodes the first 10 bytes as payload and the next 2 as checksum,
and consumes exactly `dataSize - 1` bytes after the marker. -/
theorem readTag_frame (d : Nat) (rest : List Nat) (hd : 13 ≤ d)
    (hl : d - 1 ≤ rest.length) :
    readTag d (2 :: rest)
      = decodeCore (rest.take 10) ((rest.drop 10).take 2) (rest.drop (d - 1)) := by
  have h10 : (rest.take (d - 1)).take 10 = rest.take 10 := by
    rw [List.take_take]
    congr 1
    omega
  have h2 : ((rest.take (d - 1)).drop 10).take 2 = (rest.drop 10).take 2 := by
    rw [List.drop_take, List.take_take]
    congr 1
    omega
  have hlen : (rest.take (d - 1)).length = d - 1 := by
    rw [List.length_take]
    omega
  simp only [readTag, decodeCore, if_pos rfl, hlen, lt_irrefl, if_false, h10, h2, if_true]

/-- An ASCII hex digit lies in one of the three digit ranges. -/
theorem isHexDigit_range (c : Nat) (h : isHexDigit c = true) :
    48 ≤ c ∧ c ≤ 57 ∨ 97 ≤ c ∧ c ≤ 102 ∨ 65 ≤ c ∧ c ≤ 70 := by
  simp only [isHexDigit, hexDigitVal] at h
  split at h
  · exact Or.inl (by assumption)
  · split at h
    · exact Or.inr (Or.inl (by assumption))
    · split at h
      · exact Or.inr (Or.inr (by assumption))
      · simp at h

/-- The value of a hex digit is below 16. -/
theorem hexDigitVal_lt_16 (c d : Nat) (h : hexDigitVal c = some d) : d < 16 := by
  simp only [hexDigitVal] at h
  split at h
  · injection h with h'; omega
  · split at h
    · injection h with h'; omega
    · split at h
      · injection h with h'; omega
      · exact absurd h (by simp)

/-- A hex digit is not whitespace, a sign, an underscore, or `x`/`X`. -/
theorem isHexDigit_not_special (c : Nat) (h : isHexDigit c = true) :
    isPySpace c = false ∧ c ≠ 43 ∧ c ≠ 45 ∧ c ≠ 95 ∧ ¬(c = 120 ∨ c = 88) := by
  have hr := isHexDigit_range c h
  refine ⟨?_, by omega, by omega, by omega, by omega⟩
  simp only [isPySpace, Bool.or_eq_false_iff, beq_eq_false_iff_ne, ne_eq]
  omega

/-- A `dropWhile` whose predicate no element satisfies is the identity. -/
theorem dropWhile_eq_self_of_none (p : Nat → Bool) (s : List Nat)
    (h : ∀ c ∈ s, p c = false) : s.dropWhile p = s := by
  cases s with
  | nil => rfl
  | cons c rest =>
    rw [List.dropWhile_cons, h c (List.mem_cons_self c rest)]
    simp

/-- Whitespace stripping leaves an all-hex-digit string unchanged. -/
theorem strip_eq_self (s : List Nat) (h : ∀ c ∈ s, isHexDigit c = true) :
    ((s.dropWhile isPySpace).reverse.dropWhile isPySpace).reverse = s := by
  have h1 : s.dropWhile isPySpace = s :=
    dropWhile_eq_self_of_none _ _ fun c hc => (isHexDigit_not_special c (h c hc)).1
  rw [h1]
  have h2 : s.reverse.dropWhile isPySpace = s.reverse :=
    dropWhile_eq_self_of_none _ _ fun c hc =>
      (isHexDigit_not_special c (h c (List.mem_reverse.mp hc))).1
  rw [h2, List.reverse_reverse]

/-- On an all-hex-digit string the value computed by `parseDigitsU` is
bounded by `(acc + 1) * 16 ^ length`. -/
theorem parseDigitsU_hex_bound :
    ∀ (s : List Nat) (acc : Nat) (u e : Bool) (m : Nat),
      (∀ c ∈ s, isHexDigit c = true) →
      parseDigitsU acc u e s = some m → m < (acc + 1) * 16 ^ s.length := by
  intro s
  induction s with
  | nil =>
    intro acc u e m _ hp
    simp only [parseDigitsU] at hp
    split at hp
    · injection hp with h'
      simp only [List.length_nil, pow_zero, mul_one]
      omega
    · exact absurd hp (by simp)
  | cons c rest ih =>
    intro acc u e m hall hp
    have hc := hall c (List.mem_cons_self c rest)
    have hne95 : (c == 95) = false := by
      have := isHexDigit_range c hc
      simp only [beq_eq_false_iff_ne, ne_eq]
      omega
    simp only [parseDigitsU, hne95, Bool.false_eq_true, if_false] at hp
    obtain ⟨dv, hdv⟩ := Option.isSome_iff_exists.mp hc
    rw [hdv] at hp
    have hb := ih (acc * 16 + dv) true true m
      (fun x hx => hall x (List.mem_cons_of_mem c hx)) hp
    have hdlt : dv < 16 := hexDigitVal_lt_16 c dv hdv
    calc m < (acc * 16 + dv + 1) * 16 ^ rest.length := hb
      _ ≤ ((acc + 1) * 16) * 16 ^ rest.length := by
          exact mul_le_mul_right' (by omega) _
      _ = (acc + 1) * 16 ^ (c :: rest).length := by
          rw [List.length_cons, pow_succ]
          ring

/-- On an all-hex-digit string, no `0x` prefix is recognised. -/
theorem parseAfterSign_hex (s : List Nat) (h : ∀ c ∈ s, isHexDigit c = true) :
    parseAfterSign s = parseDigitsU 0 false false s := by
  rcases s with _ | ⟨c0, _ | ⟨c1, rest⟩⟩
  · rfl
  · rfl
  · have h1 := isHexDigit_not_special c1 (h c1 (by simp))
    simp only [parseAfterSign]
    rw [if_neg]
    rintro ⟨-, hx⟩
    exact h1.2.2.2.2 hx

/-- The Python conversion `int(s, 16)` on an all-hex-digit string returns a
natural number below `16 ^ length`. -/
theorem parsePyInt16_hex (s : List Nat) (m : Int)
    (hall : ∀ c ∈ s, isHexDigit c = true)
    (hp : parsePyInt16 s = some m) :
    ∃ mn : Nat, m = (mn : Int) ∧ mn < 16 ^ s.length := by
  simp only [parsePyInt16] at hp
  rw [strip_eq_self s hall] at hp
  cases s with
  | nil => exact absurd hp (by simp [parseAfterSign, parseDigitsU])
  | cons c rest =>
    have hc := isHexDigit_not_special c (hall c (List.mem_cons_self c rest))
    rw [List.head?_cons] at hp
    rw [if_neg (by simpa using hc.2.1), if_neg (by simpa using hc.2.2.1)] at hp
    obtain ⟨mn, hmn, hcast⟩ := Option.map_eq_some'.mp hp
    rw [parseAfterSign_hex _ hall] at hmn
    have hb := parseDigitsU_hex_bound _ 0 false false mn hall hmn
    exact ⟨mn, hcast.symm, by simpa using hb⟩


/-- The decode result does not depend on the bytes left pending. -/
theorem decodeCore_fst_congr (p c r₁ r₂ : List Nat) :
    (decodeCore p c r₁).1 = (decodeCore p c r₂).1 := by
  unfold decodeCore
  cases parsePyInt16 p with
  | none => rfl
  | some v =>
    cases checkSum p c with
    | error e => rfl
    | ok b => cases b <;> rfl

/-- When the decode does not flush, the pending bytes are exactly `rem`. -/
theorem decodeCore_noflush_rem (p c r : List Nat)
    (h : (decodeCore p c r).2.2 = 0) : (decodeCore p c r).2.1 = r := by
  unfold decodeCore at h ⊢
  rcases hp : parsePyInt16 p with _ | v
  · rw [hp] at h
    simp at h
  · rw [hp] at h
    rcases hc : checkSum p c with e | b
    · rfl
    · rw [hc] at h
      cases b
      · simp at h
      · rfl

/-- C5: if the stream yields the start marker `0x02` and then fewer than
`dataSize - 1` further bytes within the bounded timeout, `readTag` raises
the incomplete-frame `ValueError` and the pending input buffer is left
cleared (one `flushInput`). -/
theorem C5_incomplete_frame_flushes (d : Nat) (rest : List Nat)
    (h : rest.length < d - 1) :
    readTag d (2 :: rest) = (.error .incompleteFrame, [], 1) := by
  have hlen : (rest.take (d - 1)).length < d - 1 := by
    rw [List.length_take]
    omega
  simp only [readTag, if_pos rfl, if_pos hlen, if_true]

/-- Witness for C5: spec scenario — `0x02` then only 8 bytes on a
`dataSize = 16` reader. -/
theorem C5_incomplete_frame_flushes_witness :
    readTag 16 (2 :: [48, 49, 50, 51, 52, 53, 54, 55])
      = (.error .incompleteFrame, [], 1) :=
  C5_incomplete_frame_flushes 16 [48, 49, 50, 51, 52, 53, 54, 55] (by decide)

/-- C6: if the first delivered byte is not the start marker `0x02`,
`readTag` flushes the buffered input and raises the bad-start-marker
`ValueError`. -/
theorem C6_bad_start_marker_flushes (d b : Nat) (rest : List Nat) (h : b ≠ 2) :
    readTag d (b :: rest) = (.error .badStartMarker, [], 1) := by
  simp only [readTag, if_neg h]

/-- Witness for C6: spec scenario — first byte `0x41`. -/
theorem C6_bad_start_marker_flushes_witness :
    readTag 16 (65 :: [48, 49, 50]) = (.error .badStartMarker, [], 1) :=
  C6_bad_start_marker_flushes 16 65 [48, 49, 50] (by decide)

/-- C3 (code behaviour at the failing input): `TagReader.__init__` takes no
`doCheckSum` parameter — despite its own docstring documenting one — and
`readTag` validates the checksum unconditionally.  On the valid frame with
payload `"0000000001"` and (non-matching) checksum field `"FF"`, which the
claim says a checksum-disabled reader would decode to 1, the code flushes
and raises the checksum `ValueError`. -/
theorem C3_no_checksum_flag_always_validates :
    readTag 16
        ([2] ++ [48, 48, 48, 48, 48, 48, 48, 48, 48, 49] ++ [70, 70] ++ [13, 10, 3])
      = (.error .checksumMismatch, [], 1) := rfl

/-- C4 (code behaviour at the failing input): on a frame whose checksum field
`"GG"` is not hexadecimal, `int(checkSum, 16)` raises inside
`TagReader.checkSum`, the handler `raise e("checksum error")` calls the
`ValueError` instance and therefore raises a `TypeError`, which propagates
out of `readTag` without any `flushInput`: the extra pending byte `0x99`
stays in the buffer, and the failure kind differs from a checksum
mismatch. -/
theorem C4_nonhex_checksum_typeerror_no_flush :
    readTag 16
        ([2] ++ [48, 49, 50, 51, 52, 53, 54, 55, 56, 57] ++ [71, 71]
          ++ [13, 10, 3] ++ [153])
      = (.error .typeErrorNotCallable, [153], 0) := rfl

/-- C10: on every successful decode, `readTag` consumes exactly `dataSize`
bytes from the stream (the marker plus `dataSize - 1` more), leaves the
remaining buffered input untouched, and never calls `flushInput`. -/
theorem C10_success_consumes_exactly (d : Nat) (buf res : List Nat) (v : Int)
    (n : Nat) (h : readTag d buf = (.ok v, res, n)) :
    n = 0 ∧ res = buf.drop d := by
  cases buf with
  | nil =>
    simp only [readTag, Prod.mk.injEq] at h
    exact ⟨h.2.2.symm, by simp [h.2.1.symm]⟩
  | cons b rest =>
    simp only [readTag] at h
    by_cases hb : b = 2
    · rw [if_pos hb] at h
      subst hb
      by_cases hlen : (rest.take (d - 1)).length < d - 1
      · rw [if_pos hlen] at h
        simp at h
      · rw [if_neg hlen] at h
        rcases hp : parsePyInt16 ((rest.take (d - 1)).take 10) with _ | decVal
        · rw [hp] at h
          simp at h
        · rw [hp] at h
          rcases hc : checkSum ((rest.take (d - 1)).take 10)
              (((rest.take (d - 1)).drop 10).take 2) with e | b'
          · rw [hc] at h
            simp at h
          · rw [hc] at h
            cases b'
            · simp at h
            · simp only [Prod.mk.injEq] at h
              obtain ⟨-, h2, h3⟩ := h
              have hd2 : 2 ≤ d := by
                by_contra hcon
                have : rest.take (d - 1) = [] := by
                  have : d - 1 = 0 := by omega
                  rw [this, List.take_zero]
                rw [this] at hp
                simp [parsePyInt16, parseAfterSign, parseDigitsU] at hp
              obtain ⟨d', rfl⟩ : ∃ d', d = d' + 1 := ⟨d - 1, by omega⟩
              refine ⟨h3.symm, ?_⟩
              rw [← h2, List.drop_succ_cons]
              simp
    · rw [if_neg hb] at h
      simp at h

/-- Witness for C10: a successful decode on a 16-byte frame followed by two
extra buffered bytes consumes exactly 16 bytes, leaves the two bytes
pending, and performs no flush. -/
theorem C10_success_consumes_exactly_witness :
    (0 : Nat) = 0 ∧
      ([7, 8] : List Nat)
        = ([2] ++ [48, 49, 50, 51, 52, 53, 54, 55, 56, 57] ++ [56, 57]
            ++ [13, 10, 3] ++ [7, 8]).drop 16 :=
  C10_success_consumes_exactly 16
    ([2] ++ [48, 49, 50, 51, 52, 53, 54, 55, 56, 57] ++ [56, 57]
      ++ [13, 10, 3] ++ [7, 8]) [7, 8] 4886718345 0 rfl

/-- C2: the edge callback, on a rising edge (line high), stores the value
returned by `readTag` into the shared tag variable, or 0 if `readTag`
raises — the exception is swallowed, and the callback always returns
normally (it is a total function); on a falling edge (line low) it stores
0 and clears the input buffer. -/
theorem C2_callback_edges (d : Nat) (s : SysState) :
    (tagReaderCallback d s).globalTag
        = (if s.pinHigh then
            match (readTag d s.buffer).1 with
            | .ok v => v
            | .error _ => 0
          else 0) ∧
    (tagReaderCallback d s).buffer
        = (if s.pinHigh then (readTag d s.buffer).2.1 else []) := by
  unfold tagReaderCallback
  by_cases hp : s.pinHigh
  · rcases hre : readTag d s.buffer with ⟨r, buf2, n⟩
    cases r <;> simp [hp, hre]
  · simp [hp]

/-- C9 counterexample: install the edge callback on pin 17 (≠ `TIRpin` = 23)
and then call `removeCallback`; the edge handler on pin 17 is still
attached, because `removeCallback` detaches `self.TIRpin`, not the
installed line. -/
theorem C9_counterexample_wrong_pin :
    (removeCallback (installCallback 17
        ⟨fun _ => false, fun _ => false⟩)).eventDetect 17 = true ∧
      (17 : Nat) ≠ TIRpin := ⟨rfl, by decide⟩

/-- C9 amended: `removeCallback` detaches the edge handler and releases the
GPIO resource on the fixed configured line `TIRpin` = 23 (which is the
installed line only when the callback was installed on pin 23), and calling
it twice has the same effect as calling it once. -/
theorem C9_remove_fixed_pin_idempotent (g : GPIOState) :
    removeCallback (removeCallback g) = removeCallback g ∧
    (removeCallback g).eventDetect TIRpin = false ∧
    (removeCallback g).allocated TIRpin = false ∧
    (removeCallback (installCallback TIRpin g)).eventDetect TIRpin = false := by
  refine ⟨?_, by simp [removeCallback], by simp [removeCallback],
    by simp [removeCallback]⟩
  ext p
  · by_cases hp : p = TIRpin <;> simp [removeCallback, hp]
  · by_cases hp : p = TIRpin <;> simp [removeCallback, hp]

/-- C1: for a complete frame (start marker, 10-byte payload, 2-byte checksum
field, terminator filling out `dataSize`, possibly further buffered bytes)
whose payload, payload chunks and checksum field all parse as base 16:
if the XOR of the five payload chunks equals the parsed checksum field,
`readTag` returns the parsed payload value; otherwise it flushes the
buffered input and raises the checksum `ValueError`. -/
theorem C1_checksum_decides (d : Nat) (payload chk term extra : List Nat)
    (v x c : Int) (hd : 13 ≤ d)
    (hp : payload.length = 10) (hc : chk.length = 2) (ht : term.length = d - 13)
    (hval : parsePyInt16 payload = some v)
    (hx : chunksXor payload = some x)
    (hcs : parsePyInt16 chk = some c) :
    (x = c → readTag d (2 :: (payload ++ chk ++ term ++ extra))
        = (.ok v, extra, 0)) ∧
    (x ≠ c → readTag d (2 :: (payload ++ chk ++ term ++ extra))
        = (.error .checksumMismatch, [], 1)) := by
  have hassoc : payload ++ chk ++ term ++ extra
      = payload ++ (chk ++ (term ++ extra)) := by
    simp [List.append_assoc]
  have hlen : d - 1 ≤ (payload ++ chk ++ term ++ extra).length := by
    simp only [List.length_append]
    omega
  have htake10 : (payload ++ chk ++ term ++ extra).take 10 = payload := by
    rw [hassoc]
    exact List.take_left' hp
  have hdrop10 : (payload ++ chk ++ term ++ extra).drop 10
      = chk ++ (term ++ extra) := by
    rw [hassoc]
    exact List.drop_left' hp
  have htake2 : ((payload ++ chk ++ term ++ extra).drop 10).take 2 = chk := by
    rw [hdrop10]
    exact List.take_left' hc
  have hdropd : (payload ++ chk ++ term ++ extra).drop (d - 1) = extra :=
    List.drop_left' (by simp only [List.length_append]; omega)
  rw [readTag_frame d _ hd hlen, htake10, htake2, hdropd]
  simp only [decodeCore, checkSum, hval, hx, hcs]
  constructor
  · intro heq
    have hbeq : (x == c) = true := beq_iff_eq.mpr heq
    simp only [hbeq]
  · intro hne
    have hbeq : (x == c) = false := beq_eq_false_iff_ne.mpr hne
    simp only [hbeq]

/-- Witness for C1 (matching branch): the round-trip frame of the spec — payload
`"0123456789"`, checksum `"89"` (`0x01^0x23^0x45^0x67^0x89 = 0x89`),
terminator CR LF ETX — decodes to `0x0123456789`. -/
theorem C1_checksum_decides_witness :
    readTag 16
        (2 :: ([48, 49, 50, 51, 52, 53, 54, 55, 56, 57] ++ [56, 57]
          ++ [13, 10, 3] ++ []))
      = (.ok 4886718345, [], 0) :=
  (C1_checksum_decides 16 [48, 49, 50, 51, 52, 53, 54, 55, 56, 57] [56, 57]
    [13, 10, 3] [] 4886718345 137 137 (by decide) (by decide) (by decide)
    (by decide) rfl rfl rfl).1 rfl

/-- C8: for either supported `dataSize` (14 for RDM readers, 16 for ID
readers), `readTag` reads exactly `dataSize - 1` bytes after the start
marker and otherwise runs the identical algorithm: given enough bytes, the
outcome depends only on the first 12 bytes after the marker (payload plus
checksum field), independently of which of the two sizes is configured, and
whenever no flush happens the bytes consumed are exactly the marker plus
`dataSize - 1` more. -/
theorem C8_datasize_only_read_length (d₁ d₂ : Nat) (rest₁ rest₂ : List Nat)
    (h₁ : d₁ = 14 ∨ d₁ = 16) (h₂ : d₂ = 14 ∨ d₂ = 16)
    (hl₁ : d₁ - 1 ≤ rest₁.length) (hl₂ : d₂ - 1 ≤ rest₂.length)
    (hagree : rest₁.take 12 = rest₂.take 12) :
    (readTag d₁ (2 :: rest₁)).1 = (readTag d₂ (2 :: rest₂)).1 ∧
    ((readTag d₁ (2 :: rest₁)).2.2 = 0 →
      (readTag d₁ (2 :: rest₁)).2.1 = rest₁.drop (d₁ - 1)) := by
  have hd₁ : 13 ≤ d₁ := by omega
  have hd₂ : 13 ≤ d₂ := by omega
  have e₁ := readTag_frame d₁ rest₁ hd₁ hl₁
  have e₂ := readTag_frame d₂ rest₂ hd₂ hl₂
  have h10 : rest₁.take 10 = rest₂.take 10 := by
    have h := congrArg (List.take 10) hagree
    simpa [List.take_take] using h
  have h2c : (rest₁.drop 10).take 2 = (rest₂.drop 10).take 2 := by
    have h := congrArg (List.drop 10) hagree
    rw [List.drop_take, List.drop_take] at h
    simpa using h
  constructor
  · rw [e₁, e₂, h10, h2c]
    exact decodeCore_fst_congr _ _ _ _
  · intro hfl
    rw [e₁] at hfl ⊢
    exact decodeCore_noflush_rem _ _ _ hfl

/-- Witness for C8: the same 12 frame bytes behind the marker give the same
result on a 14-byte RDM frame (terminator `0x03`) and a 16-byte ID frame
(terminator CR LF ETX). -/
theorem C8_datasize_only_read_length_witness :
    (readTag 14 (2 :: ([48, 49, 50, 51, 52, 53, 54, 55, 56, 57]
          ++ [56, 57] ++ [3]))).1
        = (readTag 16 (2 :: ([48, 49, 50, 51, 52, 53, 54, 55, 56, 57]
          ++ [56, 57] ++ [13, 10, 3]))).1 ∧
    ((readTag 14 (2 :: ([48, 49, 50, 51, 52, 53, 54, 55, 56, 57]
          ++ [56, 57] ++ [3]))).2.2 = 0 →
      (readTag 14 (2 :: ([48, 49, 50, 51, 52, 53, 54, 55, 56, 57]
          ++ [56, 57] ++ [3]))).2.1
        = ([48, 49, 50, 51, 52, 53, 54, 55, 56, 57]
            ++ [56, 57] ++ [3]).drop 13) :=
  C8_datasize_only_read_length 14 16
    ([48, 49, 50, 51, 52, 53, 54, 55, 56, 57] ++ [56, 57] ++ [3])
    ([48, 49, 50, 51, 52, 53, 54, 55, 56, 57] ++ [56, 57] ++ [13, 10, 3])
    (Or.inl rfl) (Or.inr rfl) (by decide) (by decide) rfl

/-- C7 counterexample: `readTag` accepts the 16-byte frame with payload bytes
`"-100000000"` and checksum field `"-1"` (the Python conversion accepts a
sign, and `-1 = 0 ^ -1 ^ 0 ^ 0 ^ 0 ^ 0` makes the checksum match), and
returns `-0x100000000`, which is not an unsigned integer in
`[0, 2^40 - 1]`. -/
theorem C7_counterexample_negative_tag :
    (readTag 16 ([2] ++ [45, 49, 48, 48, 48, 48, 48, 48, 48, 48]
        ++ [45, 49] ++ [13, 10, 3])).1
      = .ok (-4294967296) ∧ ¬((0 : Int) ≤ -4294967296) :=
  ⟨rfl, by decide⟩

/-- C7 amended: whenever the 10 payload bytes are ASCII hexadecimal digits,
every value returned by a successful `readTag` lies in `[0, 2^40 - 1]`. -/
theorem C7_value_in_range_of_hex_payload (d : Nat) (buf res : List Nat)
    (v : Int) (n : Nat) (hd : 11 ≤ d)
    (hhex : ∀ ch ∈ (buf.drop 1).take 10, isHexDigit ch = true)
    (h : readTag d buf = (.ok v, res, n)) :
    0 ≤ v ∧ v < 2 ^ 40 := by
  cases buf with
  | nil =>
    simp only [readTag, Prod.mk.injEq, Except.ok.injEq] at h
    rw [← h.1]
    norm_num
  | cons b rest =>
    have hhex' : ∀ ch ∈ rest.take 10, isHexDigit ch = true := by
      simpa using hhex
    simp only [readTag] at h
    by_cases hb : b = 2
    · rw [if_pos hb] at h
      by_cases hlen : (rest.take (d - 1)).length < d - 1
      · rw [if_pos hlen] at h
        simp at h
      · rw [if_neg hlen] at h
        have ht10 : (rest.take (d - 1)).take 10 = rest.take 10 := by
          rw [List.take_take]
          congr 1
          omega
        rw [ht10] at h
        rcases hpv : parsePyInt16 (rest.take 10) with _ | decVal
        · rw [hpv] at h
          simp at h
        · rw [hpv] at h
          rcases hcs : checkSum (rest.take 10)
              (((rest.take (d - 1)).drop 10).take 2) with e | b'
          · rw [hcs] at h
            simp at h
          · rw [hcs] at h
            cases b'
            · simp at h
            · simp only [Prod.mk.injEq, Except.ok.injEq] at h
              obtain ⟨h1, -, -⟩ := h
              obtain ⟨mn, hmn, hlt⟩ := parsePyInt16_hex _ _ hhex' hpv
              rw [← h1, hmn]
              have hle : (rest.take 10).length ≤ 10 := by
                rw [List.length_take]
                omega
              have h16 : (16 : Nat) ^ (rest.take 10).length ≤ 16 ^ 10 :=
                Nat.pow_le_pow_right (by norm_num) hle
              have hmn2 : mn < 2 ^ 40 := by
                have h240 : (16 : Nat) ^ 10 = 2 ^ 40 := by norm_num
                omega
              constructor
              · exact_mod_cast Nat.zero_le mn
              · exact_mod_cast hmn2
    · rw [if_neg hb] at h
      simp at h

/-- Witness for C7 amended: the round-trip frame value `0x0123456789` lies
in range. -/
theorem C7_value_in_range_of_hex_payload_witness :
    (0 : Int) ≤ 4886718345 ∧ (4886718345 : Int) < 2 ^ 40 :=
  C7_value_in_range_of_hex_payload 16
    ([2] ++ [48, 49, 50, 51, 52, 53, 54, 55, 56, 57] ++ [56, 57] ++ [13, 10, 3])
    [] 4886718345 0 (by decide) (by decide) (by rfl)

end RFID
